import Mathlib

/-!
Verification development for the Substack-export-to-Markdown converter
(`main.py`).  The Python source is shallowly embedded: each embedded
definition mirrors one function or code block of `main.py`; file I/O is
made explicit (file contents are passed as values, the output directory
is an association list), and the external HTML→Markdown renderer
(`html2text`, used as a black box by the source) is a function parameter.
-/

/-! ## Character classes and Python-style string primitives -/

/-- Whitespace class of Python's `str.strip()` and of `\s` in `re`
(ASCII part: space, tab, newline, carriage return, vertical tab, form feed).
The embedding is restricted to ASCII whitespace. -/
def isPySpace (c : Char) : Bool :=
  c = ' ' || c = '\t' || c = '\n' || c = '\r' || c = '\x0b' || c = '\x0c'

/-- Word-character class `\w` of Python `re` on `str`
(ASCII part: letters, digits and the underscore). -/
def isWordChar (c : Char) : Bool :=
  c.isAlphanum || c = '_'

/-- Python `str.strip()` on a character list: drop whitespace from both ends. -/
def pyStripL (cs : List Char) : List Char :=
  ((cs.dropWhile isPySpace).reverse.dropWhile isPySpace).reverse

/-- Python `str.strip()` on a string. -/
def pyStrip (s : String) : String :=
  ⟨pyStripL s.data⟩

/-- Characters that belong to the class `[-\s]` of `re.sub(r'[-\s]+', '-', ...)`. -/
def isWsHyp (c : Char) : Bool :=
  isPySpace c || c = '-'

mutual

/-- Embedding of `re.sub(r'[-\s]+', '-', s)`: every maximal run of
whitespace-or-hyphen characters is replaced by a single hyphen
(`skipRunWsHyp` consumes the remainder of the current run). -/
def collapseWsHyp : List Char → List Char
  | [] => []
  | c :: cs =>
    if isWsHyp c then '-' :: skipRunWsHyp cs
    else c :: collapseWsHyp cs

/-- Consume the tail of a whitespace-or-hyphen run already replaced by `-`. -/
def skipRunWsHyp : List Char → List Char
  | [] => []
  | c :: cs =>
    if isWsHyp c then skipRunWsHyp cs
    else c :: collapseWsHyp cs

end

/-- Embedding of `safe_title = re.sub(r'[-\s]+', '-', re.sub(r'[^\w\s-]', '', title).strip())`
from `SubstackConverter.convert_file` (main.py lines 177-178):
strip every character outside `[\w\s-]`, trim surrounding whitespace,
collapse whitespace-or-hyphen runs to a single hyphen. -/
def safe_title (title : String) : String :=
  ⟨collapseWsHyp (pyStripL (title.data.filter (fun c => isWordChar c || isPySpace c || c = '-')))⟩

/-- Sanitization rule exactly as the claim words it: strips every character
that is not alphanumeric, whitespace, or hyphen (note: no underscore),
trims surrounding whitespace, collapses whitespace-or-hyphen runs to one hyphen. -/
def claimSanitize (title : String) : String :=
  ⟨collapseWsHyp (pyStripL (title.data.filter (fun c => c.isAlphanum || isPySpace c || c = '-')))⟩

/-- Run-collapsing written independently, as a single right fold that carries
a flag recording whether the previous character was inside a
whitespace-or-hyphen run. -/
def specCollapseStep (c : Char) (acc : Bool × List Char) : Bool × List Char :=
  if isWsHyp c then
    (true, if acc.1 then acc.2 else '-' :: acc.2)
  else
    (false, c :: acc.2)

/-- Spec-side statement of the (amended) sanitization contract: keep only word
characters, whitespace and hyphens, trim surrounding whitespace, then replace
each whitespace-or-hyphen run by one hyphen (via `specCollapseStep`). -/
def specSanitizeWord (title : String) : String :=
  ⟨(List.foldr specCollapseStep (false, [])
      (pyStripL (title.data.filter (fun c => isWordChar c || isPySpace c || c = '-')))).2⟩

/-- Head-of-run flag computed by the fold. -/
def runHead : List Char → Bool
  | [] => false
  | c :: _ => isWsHyp c

/-! ## Date parsing and formatting

Embedding of `SubstackConverter._format_date` (main.py lines 115-121):
`datetime.fromisoformat(date_str.replace('Z', '+00:00')).strftime('%Y-%m-%d')`
with every exception mapped to returning the raw input.  `fromisoformat` is
modelled by the strict grammar the documented CPython (< 3.11) parser accepts:
`YYYY-MM-DD`, optionally followed by one separator character (any character)
and `HH[:MM[:SS[.fff or .ffffff]]][{+,-}HH:MM[:SS[.ffffff]]]`, with field
range validation as performed by the `datetime`/`timezone` constructors. -/

/-- Read exactly `n` decimal digits, returning their value and the rest. -/
def readDigitsAux : Nat → Nat → List Char → Option (Nat × List Char)
  | 0, acc, cs => some (acc, cs)
  | n + 1, acc, c :: cs =>
    if c.isDigit then readDigitsAux n (acc * 10 + (c.toNat - 48)) cs else none
  | _ + 1, _, [] => none

def readDigits (n : Nat) (cs : List Char) : Option (Nat × List Char) :=
  readDigitsAux n 0 cs

def isLeapYear (y : Nat) : Bool :=
  (y % 4 = 0 && y % 100 ≠ 0) || y % 400 = 0

def daysInMonth (y m : Nat) : Nat :=
  if m = 2 then (if isLeapYear y then 29 else 28)
  else if m = 4 || m = 6 || m = 9 || m = 11 then 30
  else 31

/-- Read a fractional-second part `.fff` or `.ffffff` (exactly 3 or 6 digits). -/
def readFrac (cs : List Char) : Option (List Char) :=
  match readDigits 6 cs with
  | some (_, rest) => some rest
  | none =>
    match readDigits 3 cs with
    | some (_, rest) => some rest
    | none => none

/-- Parse and validate a timezone suffix `{+,-}HH:MM[:SS[.ffffff]]`;
the offset must be strictly less than 24 hours.  Must consume all input. -/
def parseTzPart (cs : List Char) : Bool :=
  match cs with
  | sign :: r0 =>
    if sign = '+' || sign = '-' then
      match readDigits 2 r0 with
      | some (th, ':' :: r1) =>
        (match readDigits 2 r1 with
        | some (tm, []) => th * 3600 + tm * 60 < 86400
        | some (tm, ':' :: r2) =>
          (match readDigits 2 r2 with
          | some (ts, []) => th * 3600 + tm * 60 + ts < 86400
          | some (ts, '.' :: r3) =>
            (match readDigits 6 r3 with
            | some (_, []) => th * 3600 + tm * 60 + ts < 86400
            | _ => false)
          | _ => false)
        | _ => false)
      | _ => false
    else false
  | [] => false

/-- Parse and validate the time-of-day part `HH[:MM[:SS[.fff/.ffffff]]]`
followed by an optional timezone suffix.  Must consume all input. -/
def parseTimePart (cs : List Char) : Bool :=
  match readDigits 2 cs with
  | some (hh, rest) =>
    if hh ≤ 23 then
      match rest with
      | [] => true
      | ':' :: r1 =>
        (match readDigits 2 r1 with
        | some (mm, r2) =>
          if mm ≤ 59 then
            match r2 with
            | [] => true
            | ':' :: r3 =>
              (match readDigits 2 r3 with
              | some (ss, r4) =>
                if ss ≤ 59 then
                  match r4 with
                  | [] => true
                  | '.' :: r5 =>
                    (match readFrac r5 with
                    | some [] => true
                    | some rest2 => parseTzPart rest2
                    | none => false)
                  | _ => parseTzPart r4
                else false
              | none => false)
            | _ => parseTzPart r2
          else false
        | none => false)
      | _ => parseTzPart rest
    else false
  | none => false

/-- Model of `datetime.fromisoformat` as accepted by CPython < 3.11, reduced
to the calendar date it returns (the time and offset only decide success). -/
def fromisoformat (cs : List Char) : Option (Nat × Nat × Nat) :=
  match readDigits 4 cs with
  | some (y, '-' :: r1) =>
    (match readDigits 2 r1 with
    | some (mo, '-' :: r2) =>
      (match readDigits 2 r2 with
      | some (d, r3) =>
        if 1 ≤ y && 1 ≤ mo && mo ≤ 12 && 1 ≤ d && d ≤ daysInMonth y mo then
          match r3 with
          | [] => some (y, mo, d)
          | _ :: tr => if parseTimePart tr then some (y, mo, d) else none
        else none
      | none => none)
    | _ => none)
  | _ => none

/-- Decimal digits of a natural number (fuel-based so the kernel evaluates it). -/
def natDigitsAux : Nat → Nat → List Char → List Char
  | 0, _, acc => acc
  | fuel + 1, n, acc =>
    if n < 10 then Char.ofNat (48 + n) :: acc
    else natDigitsAux fuel (n / 10) (Char.ofNat (48 + n % 10) :: acc)

/-- Zero-padded decimal rendering, as `strftime` field formatting. -/
def padNum (w n : Nat) : String :=
  let ds := natDigitsAux (n + 1) n []
  ⟨List.replicate (w - ds.length) '0' ++ ds⟩

/-- Embedding of `dt.strftime('%Y-%m-%d')`. -/
def fmtYMD (y m d : Nat) : String :=
  padNum 4 y ++ "-" ++ padNum 2 m ++ "-" ++ padNum 2 d

/-- Embedding of `date_str.replace('Z', '+00:00')`: every occurrence of `Z`
is replaced. -/
def zReplace (cs : List Char) : List Char :=
  cs.flatMap (fun c => if c = 'Z' then "+00:00".data else [c])

/-- Embedding of `SubstackConverter._format_date` (main.py lines 115-121). -/
def _format_date (date_str : String) : String :=
  match fromisoformat (zReplace date_str.data) with
  | some (y, m, d) => fmtYMD y m d
  | none => date_str

/-! ## Metadata records, loader and frontmatter builder -/

/-- One value of the in-memory metadata mapping, as built by
`_load_posts_metadata` (main.py lines 60-66): the five keys always present
in a loaded record. -/
structure Metadata where
  title : String
  subtitle : String
  date : String
  type : String
  published : Bool
deriving DecidableEq

/-- Python `dict.get(key, default)` over the optional per-post record:
`convert_file` uses `self.posts_metadata.get(post_id, {})`, so a post either
has a full record (`some`) or the empty dict (`none`, every key defaulted). -/
def mget {α : Type} (md : Option Metadata) (f : Metadata → α) (dflt : α) : α :=
  match md with
  | some m => f m
  | none => dflt

/-- One row of `posts.csv` (header columns used by the loader). -/
structure Row where
  post_id : String
  title : String
  subtitle : String
  post_date : String
  type : String
  is_published : String
deriving DecidableEq

/-- Embedding of `row['post_id'].split('.')[0]` (main.py line 59) and of
`_extract_post_id` (main.py lines 72-74): the part before the first dot. -/
def splitDotHead (s : String) : String :=
  ⟨s.data.takeWhile (fun c => c ≠ '.')⟩

/-- Metadata record built from a CSV row (main.py lines 60-66);
`published` is the comparison `row['is_published'] == 'true'`. -/
def rowMeta (r : Row) : Metadata :=
  ⟨r.title, r.subtitle, r.post_date, r.type, r.is_published = "true"⟩

/-- Python dict assignment `d[k] = v` on an association list: replace the
value of an existing key in place, otherwise append the new pair. -/
def dictInsert {α : Type} (l : List (String × α)) (k : String) (v : α) :
    List (String × α) :=
  if l.any (fun p => p.1 = k) then
    l.map (fun p => if p.1 = k then (k, v) else p)
  else l ++ [(k, v)]

/-- Python `dict.get` on an association list. -/
def dictGet {α : Type} : List (String × α) → String → Option α
  | [], _ => none
  | (k, v) :: rest, key => if k = key then some v else dictGet rest key

/-- Embedding of `SubstackConverter._load_posts_metadata` (main.py lines 47-70)
restricted to its loop body: the surrounding file-existence check and the
`try` around the whole loop are configuration-error handling on rows that are
all assumed readable here. -/
def _load_posts_metadata (rows : List Row) : List (String × Metadata) :=
  rows.foldl (fun m r => dictInsert m (splitDotHead r.post_id) (rowMeta r)) []

/-- Embedding of `SubstackConverter._create_frontmatter` (main.py lines
123-138).  Titles and subtitles are interpolated verbatim between double
quotes; the subtitle line is emitted only when the subtitle is non-empty
after `.strip()`; `str(bool).lower()` renders the published flag. -/
def _create_frontmatter (post_id : String) (md : Option Metadata) : String :=
  "---\n" ++
  ("title: \"" ++ mget md (fun m => m.title) "Untitled" ++ "\"\n") ++
  (if pyStrip (mget md (fun m => m.subtitle) "") ≠ "" then
    "subtitle: \"" ++ pyStrip (mget md (fun m => m.subtitle) "") ++ "\"\n"
  else "") ++
  ("date: " ++ _format_date (mget md (fun m => m.date) "") ++ "\n") ++
  ("type: " ++ mget md (fun m => m.type) "post" ++ "\n") ++
  ("published: " ++ (if mget md (fun m => m.published) false then "true" else "false") ++ "\n") ++
  ("substack_id: " ++ post_id ++ "\n") ++
  "---\n\n"

/-! ## HTML trees

The HTML tree produced by `BeautifulSoup(html, 'html.parser')`: text nodes
and elements with an attribute list and children.  The parser below models
the error-tolerant `html.parser` tree builder on well-formed fragments:
start/end/self-closing tags, void elements, quoted attribute values, stray
end tags ignored, anything unrecognized kept as text.  Comments, doctypes
and entity references do not occur in the inputs considered here. -/

inductive Node where
  | text (s : String)
  | elem (tag : String) (attrs : List (String × String)) (children : List Node)

/-- Void (self-closing) HTML elements, as treated by `html.parser`. -/
def voidTags : List String :=
  ["area", "base", "br", "col", "embed", "hr", "img", "input", "link",
   "meta", "param", "source", "track", "wbr"]

def isTagChar (c : Char) : Bool :=
  c.isAlphanum || c = '-' || c = '_' || c = ':'

def lowerStr (cs : List Char) : String :=
  ⟨cs.map Char.toLower⟩

/-- Parse the attribute list of a start tag up to the closing `>`;
returns the attributes, whether the tag was self-closing (`/>`), and the
remaining input. -/
def parseAttrsAux : Nat → List Char → List (String × String) × Bool × List Char
  | 0, cs => ([], false, cs)
  | _ + 1, [] => ([], false, [])
  | fuel + 1, c :: cs =>
    if isPySpace c then parseAttrsAux fuel cs
    else if c = '>' then ([], false, cs)
    else if c = '/' then
      match cs with
      | '>' :: rest => ([], true, rest)
      | _ => parseAttrsAux fuel cs
    else
      let key := (c :: cs).takeWhile
        (fun d => !(isPySpace d || d = '=' || d = '>' || d = '/'))
      let afterKey := (c :: cs).dropWhile
        (fun d => !(isPySpace d || d = '=' || d = '>' || d = '/'))
      match afterKey with
      | '=' :: '"' :: r1 =>
        let v := r1.takeWhile (fun d => d ≠ '"')
        let r2 := (r1.dropWhile (fun d => d ≠ '"')).drop 1
        let (as_, sc, rest) := parseAttrsAux fuel r2
        ((lowerStr key, ⟨v⟩) :: as_, sc, rest)
      | '=' :: '\'' :: r1 =>
        let v := r1.takeWhile (fun d => d ≠ '\'')
        let r2 := (r1.dropWhile (fun d => d ≠ '\'')).drop 1
        let (as_, sc, rest) := parseAttrsAux fuel r2
        ((lowerStr key, ⟨v⟩) :: as_, sc, rest)
      | '=' :: r1 =>
        let v := r1.takeWhile (fun d => !(isPySpace d || d = '>'))
        let r2 := r1.dropWhile (fun d => !(isPySpace d || d = '>'))
        let (as_, sc, rest) := parseAttrsAux fuel r2
        ((lowerStr key, ⟨v⟩) :: as_, sc, rest)
      | rest =>
        let (as_, sc, rest2) := parseAttrsAux fuel rest
        ((lowerStr key, "") :: as_, sc, rest2)

/-- Event-driven tree building of `html.parser`: parse a sibling list until
the end tag named by `stop` (or the end of input). -/
def parseNodesAux : Nat → List Char → Option String → List Node × List Char
  | 0, cs, _ => ([], cs)
  | _ + 1, [], _ => ([], [])
  | fuel + 1, '<' :: '/' :: r, stop =>
    let name := lowerStr (r.takeWhile isTagChar)
    let afterGt := (r.dropWhile (fun c => c ≠ '>')).drop 1
    if stop = some name then ([], afterGt)
    else parseNodesAux fuel afterGt stop
  | fuel + 1, '<' :: c :: r, stop =>
    if c.isAlpha then
      let name := lowerStr ((c :: r).takeWhile isTagChar)
      let afterName := (c :: r).dropWhile isTagChar
      let (attrs, selfClosing, rest) := parseAttrsAux (afterName.length + 1) afterName
      if voidTags.contains name || selfClosing then
        let (sibs, rest2) := parseNodesAux fuel rest stop
        (Node.elem name attrs [] :: sibs, rest2)
      else
        let (children, rest2) := parseNodesAux fuel rest (some name)
        let (sibs, rest3) := parseNodesAux fuel rest2 stop
        (Node.elem name attrs children :: sibs, rest3)
    else
      let (sibs, rest) := parseNodesAux fuel (c :: r) stop
      (Node.text "<" :: sibs, rest)
  | fuel + 1, c :: r, stop =>
    let txt := (c :: r).takeWhile (fun d => d ≠ '<')
    let rest := (c :: r).dropWhile (fun d => d ≠ '<')
    let (sibs, rest2) := parseNodesAux fuel rest stop
    (Node.text ⟨txt⟩ :: sibs, rest2)

/-- Embedding of `BeautifulSoup(html_content, 'html.parser')`. -/
def parseHtml (s : String) : List Node :=
  (parseNodesAux (s.data.length + 1) s.data none).1

/-- Text-node escaping of BeautifulSoup serialization (minimal formatter). -/
def escTextL (cs : List Char) : List Char :=
  cs.flatMap (fun c =>
    if c = '&' then "&amp;".data
    else if c = '<' then "&lt;".data
    else if c = '>' then "&gt;".data
    else [c])

/-- Attribute-value escaping of BeautifulSoup serialization. -/
def escAttrL (cs : List Char) : List Char :=
  cs.flatMap (fun c =>
    if c = '&' then "&amp;".data
    else if c = '"' then "&quot;".data
    else [c])

def serializeAttrs (attrs : List (String × String)) : List Char :=
  attrs.flatMap (fun kv =>
    ' ' :: kv.1.data ++ '=' :: '"' :: escAttrL kv.2.data ++ ['"'])

mutual

/-- Embedding of `str(soup)` on one node. -/
def serializeNode : Node → List Char
  | .text s => escTextL s.data
  | .elem t a c =>
    if voidTags.contains t then
      '<' :: t.data ++ serializeAttrs a ++ "/>".data
    else
      '<' :: t.data ++ serializeAttrs a ++ '>' ::
        serializeForest c ++ '<' :: '/' :: t.data ++ ['>']

def serializeForest : List Node → List Char
  | [] => []
  | n :: ns => serializeNode n ++ serializeForest ns

end

/-- Class list of an element: the `class` attribute split on whitespace
(BeautifulSoup multi-valued attribute). -/
def wordsAux : List Char → List Char → List String
  | [], acc => if acc.isEmpty then [] else [⟨acc.reverse⟩]
  | c :: cs, acc =>
    if isPySpace c then
      if acc.isEmpty then wordsAux cs [] else ⟨acc.reverse⟩ :: wordsAux cs []
    else wordsAux cs (c :: acc)

def getAttr : List (String × String) → String → Option String
  | [], _ => none
  | (k, v) :: rest, key => if k = key then some v else getAttr rest key

def classListOf (attrs : List (String × String)) : List String :=
  match getAttr attrs "class" with
  | none => []
  | some v => wordsAux v.data []

/-- Marker classes of the three noise-element removal loops
(main.py lines 81, 85, 89).  The three `find_all`/`decompose` loops use
disjoint class sets and only delete subtrees, so they are embedded as one
recursive sweep over the union of the sets. -/
def noiseClasses : List String :=
  ["subscription-widget", "subscription-widget-wrap-editor",
   "poll-embed", "captioned-button-wrap"]

/-- Matching condition of `soup.find_all(['div'], class_=[...])` for the
noise classes: a `div` whose class list contains one of the marker names. -/
def isNoiseDiv (t : String) (attrs : List (String × String)) : Bool :=
  t = "div" && (classListOf attrs).any (fun cl => noiseClasses.contains cl)

mutual

/-- Embedding of `elem.decompose()` sweeps (main.py lines 80-90): a matched
noise `div` disappears with its whole subtree. -/
def removeNoiseNode : Node → List Node
  | .text s => [.text s]
  | .elem t a c =>
    if isNoiseDiv t a then [] else [.elem t a (removeNoiseForest c)]

def removeNoiseForest : List Node → List Node
  | [] => []
  | n :: ns => removeNoiseNode n ++ removeNoiseForest ns

end

mutual

/-- Embedding of `container.find(tag)`: first descendant element with the
given tag, in document order (applied to a children forest). -/
def findTagNode (tag : String) : Node → Option Node
  | .text _ => none
  | .elem t a c =>
    if t = tag then some (.elem t a c) else findTagForest tag c

def findTagForest (tag : String) : List Node → Option Node
  | [] => none
  | n :: ns =>
    match findTagNode tag n with
    | some r => some r
    | none => findTagForest tag ns

end

mutual

/-- Embedding of `node.get_text()`: concatenation of all descendant text. -/
def getTextNode : Node → List Char
  | .text s => s.data
  | .elem _ _ c => getTextForest c

def getTextForest : List Node → List Char
  | [] => []
  | n :: ns => getTextNode n ++ getTextForest ns

end

/-- Attribute lookup `node.get(name, "")` on an element node. -/
def nodeAttrD (n : Node) (name : String) : String :=
  match n with
  | .text _ => ""
  | .elem _ a _ => (getAttr a name).getD ""

/-- Matching condition of the image-container loop (main.py line 93). -/
def isCaptionDiv (t : String) (attrs : List (String × String)) : Bool :=
  t = "div" && (classListOf attrs).contains "captioned-image-container"

mutual

/-- Embedding of the image-container simplification (main.py lines 93-106):
a `captioned-image-container` div that has an `img` descendant is replaced by
the re-parsed fragment `<img src=".." alt="..">` plus, when the stripped
caption text is non-empty, `<br><em>caption</em>`; the extracted `src`, `alt`
and caption are assumed markup-free, so the re-parse of the built fragment is
embedded as direct node construction.  A container without an `img` is left
in place (the `if img:` guard). -/
def transformNode : Node → List Node
  | .text s => [.text s]
  | .elem t a c =>
    if isCaptionDiv t a then
      match findTagForest "img" c with
      | some img =>
        let src := nodeAttrD img "src"
        let alt := nodeAttrD img "alt"
        let captionText :=
          match findTagForest "figcaption" c with
          | some cap => pyStrip ⟨getTextNode cap⟩
          | none => ""
        Node.elem "img" [("src", src), ("alt", alt)] [] ::
          (if captionText ≠ "" then
            [Node.elem "br" [] [], Node.elem "em" [] [.text captionText]]
          else [])
      | none => [.elem t a (transformForest c)]
    else [.elem t a (transformForest c)]

def transformForest : List Node → List Node
  | [] => []
  | n :: ns => transformNode n ++ transformForest ns

end

mutual

/-- Embedding of `re.sub(r'\s+', ' ', cleaned)` (main.py line 110): every
maximal whitespace run becomes one space. -/
def collapseWsL : List Char → List Char
  | [] => []
  | c :: cs =>
    if isPySpace c then ' ' :: skipRunWs cs
    else c :: collapseWsL cs

def skipRunWs : List Char → List Char
  | [] => []
  | c :: cs =>
    if isPySpace c then skipRunWs cs
    else c :: collapseWsL cs

end

/-- Match a `<br\s*/?>` tag, returning the rest of the input. -/
def matchBrTag (cs : List Char) : Option (List Char) :=
  match cs with
  | '<' :: 'b' :: 'r' :: r =>
    (match r.dropWhile isPySpace with
    | '/' :: '>' :: rest => some rest
    | '>' :: rest => some rest
    | _ => none)
  | _ => none

/-- Match the pattern `<br\s*/?>\s*<br\s*/?>` of main.py line 111. -/
def matchBrBr (cs : List Char) : Option (List Char) :=
  match matchBrTag cs with
  | some r => matchBrTag (r.dropWhile isPySpace)
  | none => none

/-- Leftmost non-overlapping substitution driver for
`re.sub(r'<br\s*/?><br\s*/?>-like patterns', repl, s)`; the fuel is the
input length, and every accepted match consumes at least one character. -/
def subMatchesAux (m : List Char → Option (List Char)) (repl : List Char) :
    Nat → List Char → List Char
  | 0, cs => cs
  | _ + 1, [] => []
  | fuel + 1, c :: cs =>
    match m (c :: cs) with
    | some rest => repl ++ subMatchesAux m repl fuel rest
    | none => c :: subMatchesAux m repl fuel cs

/-- Embedding of `re.sub(r'<br\s*/?>\s*<br\s*/?>', '\n\n', cleaned)`. -/
def subBrBr (cs : List Char) : List Char :=
  subMatchesAux matchBrBr "\n\n".data (cs.length + 1) cs

/-- Embedding of `SubstackConverter._clean_html_content`
(main.py lines 76-113). -/
def _clean_html_content (html_content : String) : String :=
  let soup := parseHtml html_content
  let soup2 := removeNoiseForest soup
  let soup3 := transformForest soup2
  let cleaned := serializeForest soup3
  let cleaned2 := collapseWsL cleaned
  let cleaned3 := subBrBr cleaned2
  ⟨cleaned3⟩

/-! ## File converter and batch driver -/

/-- Match the pattern `\n\s*\n\s*\n` of main.py line 165, with the greedy
backtracking semantics of `re`: since `\n` is itself whitespace, the match
runs from the first newline to the last newline of the maximal whitespace
run starting there, and succeeds exactly when that run contains at least
three newlines. -/
def matchNNN (cs : List Char) : Option (List Char) :=
  match cs with
  | '\n' :: _ =>
    let run := cs.takeWhile isPySpace
    if run.count '\n' ≥ 3 then
      match run.reverse.findIdx? (fun c => c = '\n') with
      | some rj => some (cs.drop (run.length - rj))
      | none => none
    else none
  | _ => none

/-- Embedding of `re.sub(r'\n\s*\n\s*\n', '\n\n', markdown_content)`. -/
def subNNN (cs : List Char) : List Char :=
  subMatchesAux matchNNN "\n\n".data (cs.length + 1) cs

/-- Markdown post-processing of `convert_file` (main.py lines 165-166):
collapse triple newline runs, then `.strip()` the whole document. -/
def mdPostprocess (md : String) : String :=
  pyStrip ⟨subNNN md.data⟩

/-- Embedding of `pathlib.PurePath.stem` (`html_file.stem`): the final name
without its last suffix (`name[:i]` when `0 < i < len(name) - 1` for `i` the
index of the last dot). -/
def pathStem (name : String) : String :=
  let cs := name.data
  match cs.reverse.findIdx? (fun c => c = '.') with
  | none => name
  | some rj =>
    let i := cs.length - 1 - rj
    if 0 < i ∧ i < cs.length - 1 then ⟨cs.take i⟩ else name

/-- One input HTML file: its filename and its readable content, `none` when
reading it raises (the exception caught at main.py line 190). -/
structure SFile where
  name : String
  content : Option String

/-- Per-file outcome of `convert_file`: a converted file records the output
filename and the written document; `skipped` is the unpublished early return
(`return False` at line 156); `failed` is the exception handler
(`return False` at line 192). -/
inductive Outcome where
  | converted (outName : String) (text : String)
  | skipped
  | failed
deriving DecidableEq

def isConverted : Outcome → Bool
  | .converted _ _ => true
  | _ => false

/-- Embedding of `SubstackConverter.convert_file` (main.py lines 140-192).
The `html2text` renderer configured in `__init__` is out of scope for the
source and is passed in as the function `h2t`. -/
def convert_file (meta : List (String × Metadata)) (h2t : String → String)
    (f : SFile) : Outcome :=
  match f.content with
  | none => .failed
  | some html_content =>
    let post_id := splitDotHead f.name
    let md := dictGet meta post_id
    if mget md (fun m => m.published) true = false then .skipped
    else
      let cleaned_html := _clean_html_content html_content
      let markdown_content := mdPostprocess (h2t cleaned_html)
      let frontmatter := _create_frontmatter post_id md
      let full_content := frontmatter ++ markdown_content
      let title := mget md (fun m => m.title) (pathStem f.name)
      .converted (post_id ++ "_" ++ safe_title title ++ ".md") full_content

/-- The write of main.py lines 184-185 as an effect on the output directory,
modelled as a filename-keyed association list (an existing file of the same
name is overwritten). -/
def writeOut (outDir : List (String × String)) : Outcome → List (String × String)
  | .converted n t => dictInsert outDir n t
  | _ => outDir

/-- Embedding of the tally loop of `SubstackConverter.convert_all`
(main.py lines 209-213): fold over the input files, incrementing the
`successful` count for each converted file and accumulating the writes. -/
def convert_all (meta : List (String × Metadata)) (h2t : String → String)
    (files : List SFile) (outDir : List (String × String)) :
    Nat × List (String × String) :=
  files.foldl
    (fun acc f =>
      let o := convert_file meta h2t f
      (if isConverted o then acc.1 + 1 else acc.1, writeOut acc.2 o))
    (0, outDir)

/-! ## Specification-side predicates used by the claim statements -/

mutual

/-- A node contains no residual noise-marker element (spec §8: "no residual
noise-marker elements remain after one pass"). -/
def noiseFreeNode : Node → Bool
  | .text _ => true
  | .elem t a c => !isNoiseDiv t a && noiseFreeForest c

def noiseFreeForest : List Node → Bool
  | [] => true
  | n :: ns => noiseFreeNode n && noiseFreeForest ns

end

/-- The frontmatter text as an ordered list of pieces, following the spec's
fixed key order `title, subtitle, date, type, published, substack_id`, the
subtitle pieces present exactly when the subtitle is non-empty after
trimming. -/
def fmPieces (post_id : String) (md : Option Metadata) : List String :=
  ["---\n", "title: \"", mget md (fun m => m.title) "Untitled", "\"\n"] ++
  (if pyStrip (mget md (fun m => m.subtitle) "") ≠ "" then
    ["subtitle: \"", pyStrip (mget md (fun m => m.subtitle) ""), "\"\n"]
  else []) ++
  ["date: ", _format_date (mget md (fun m => m.date) ""), "\n",
   "type: ", mget md (fun m => m.type) "post", "\n",
   "published: ", if mget md (fun m => m.published) false then "true" else "false", "\n",
   "substack_id: ", post_id, "\n", "---\n\n"]

/-- Concatenation of a piece list. -/
def strConcat (l : List String) : String :=
  l.foldr (fun a b => a ++ b) ""

/-! ## Helper lemmas -/

theorem skipRun_spec (cs : List Char) :
    (runHead cs = true → collapseWsHyp cs = '-' :: skipRunWsHyp cs) ∧
    (runHead cs = false → skipRunWsHyp cs = collapseWsHyp cs) := by
  cases cs with
  | nil => simp [runHead, skipRunWsHyp, collapseWsHyp]
  | cons c cs =>
    by_cases hc : isWsHyp c = true
    · simp [runHead, skipRunWsHyp, collapseWsHyp, hc]
    · simp [runHead, skipRunWsHyp, collapseWsHyp, hc]

theorem foldr_specCollapse (cs : List Char) :
    List.foldr specCollapseStep (false, []) cs = (runHead cs, collapseWsHyp cs) := by
  induction cs with
  | nil => simp [runHead, collapseWsHyp]
  | cons c cs ih =>
    rw [List.foldr_cons, ih]
    have hrh : runHead (c :: cs) = isWsHyp c := rfl
    by_cases hc : isWsHyp c = true
    · by_cases hr : runHead cs = true
      · simp [specCollapseStep, collapseWsHyp, hc, hr, hrh, (skipRun_spec cs).1 hr]
      · simp only [Bool.not_eq_true] at hr
        simp [specCollapseStep, collapseWsHyp, hc, hr, hrh, (skipRun_spec cs).2 hr]
    · simp [specCollapseStep, collapseWsHyp, hc, hrh]

theorem safe_title_eq_spec (t : String) : safe_title t = specSanitizeWord t := by
  unfold safe_title specSanitizeWord
  rw [foldr_specCollapse]

theorem noiseFreeForest_append (xs ys : List Node) :
    noiseFreeForest (xs ++ ys) = (noiseFreeForest xs && noiseFreeForest ys) := by
  induction xs with
  | nil => simp [noiseFreeForest]
  | cons n ns ih => simp [noiseFreeForest, ih, Bool.and_assoc]

mutual

theorem removeNoiseNode_free (n : Node) :
    noiseFreeForest (removeNoiseNode n) = true := by
  cases n with
  | text s => simp [removeNoiseNode, noiseFreeForest, noiseFreeNode]
  | elem t a c =>
    by_cases h : isNoiseDiv t a = true
    · simp [removeNoiseNode, h, noiseFreeForest]
    · simp only [Bool.not_eq_true] at h
      simp [removeNoiseNode, h, noiseFreeForest, noiseFreeNode,
        removeNoiseForest_free c]

theorem removeNoiseForest_free (ns : List Node) :
    noiseFreeForest (removeNoiseForest ns) = true := by
  cases ns with
  | nil => simp [removeNoiseForest, noiseFreeForest]
  | cons n ns =>
    simp [removeNoiseForest, noiseFreeForest_append,
      removeNoiseNode_free n, removeNoiseForest_free ns]

end

mutual

theorem transformNode_noImg (n : Node) (h : findTagNode "img" n = none) :
    transformNode n = [n] := by
  cases n with
  | text s => simp [transformNode]
  | elem t a c =>
    have ht : ¬(t = "img") ∧ findTagForest "img" c = none := by
      by_cases he : t = "img"
      · simp [findTagNode, he] at h
      · simp [findTagNode, he] at h
        exact ⟨he, h⟩
    by_cases hc : isCaptionDiv t a = true
    · simp [transformNode, hc, ht.2, transformForest_noImg c ht.2]
    · simp only [Bool.not_eq_true] at hc
      simp [transformNode, hc, transformForest_noImg c ht.2]

theorem transformForest_noImg (ns : List Node) (h : findTagForest "img" ns = none) :
    transformForest ns = ns := by
  cases ns with
  | nil => simp [transformForest]
  | cons n ns =>
    have hn : findTagNode "img" n = none ∧ findTagForest "img" ns = none := by
      cases he : findTagNode "img" n with
      | some r => simp [findTagForest, he] at h
      | none =>
        simp [findTagForest, he] at h
        exact ⟨rfl, h⟩
    simp [transformForest, transformNode_noImg n hn.1, transformForest_noImg ns hn.2]

end

theorem create_frontmatter_none (pid : String) :
    _create_frontmatter pid none =
      "---\ntitle: \"Untitled\"\n" ++
        ("date: \ntype: post\npublished: false\nsubstack_id: " ++ (pid ++ "\n---\n\n")) := by
  have hd : _format_date "" = "" := by decide
  have hs : ¬(pyStrip "" ≠ "") := by decide
  apply String.ext
  simp [_create_frontmatter, mget, hd, hs, String.data_append, List.append_assoc]

theorem foldl_skip_middle {α β : Type} (step : β → α → β) (x : α)
    (hx : ∀ acc, step acc x = acc) (fs1 fs2 : List α) (acc : β) :
    List.foldl step acc (fs1 ++ x :: fs2) = List.foldl step acc (fs1 ++ fs2) := by
  induction fs1 generalizing acc with
  | nil => simp [List.foldl_cons, hx]
  | cons y ys ih => simp only [List.cons_append, List.foldl_cons]; exact ih _

theorem convert_all_count (meta : List (String × Metadata)) (h2t : String → String)
    (files : List SFile) :
    ∀ (n : Nat) (d : List (String × String)),
      (files.foldl
        (fun acc f =>
          let o := convert_file meta h2t f
          (if isConverted o then acc.1 + 1 else acc.1, writeOut acc.2 o))
        (n, d)).1 =
      n + files.countP (fun f => isConverted (convert_file meta h2t f)) := by
  induction files with
  | nil => intro n d; simp
  | cons f fs ih =>
    intro n d
    simp only [List.foldl_cons, List.countP_cons]
    by_cases h : isConverted (convert_file meta h2t f) = true
    · simp only [h, if_true]
      rw [ih]
      omega
    · simp only [Bool.not_eq_true] at h
      simp only [h, Bool.false_eq_true, if_false]
      rw [ih]
      omega

theorem dictGet_none_of_disjoint {α : Type} (l : List (String × α)) (key : String)
    (h : ∀ p ∈ l, p.1 ≠ key) : dictGet l key = none := by
  induction l with
  | nil => rfl
  | cons p rest ih =>
    have hp : p.1 ≠ key := h p (by simp)
    simp only [dictGet]
    rw [if_neg hp]
    exact ih (fun q hq => h q (by simp [hq]))

theorem dictInsert_fresh {α : Type} (l : List (String × α)) (k : String) (v : α)
    (h : ∀ p ∈ l, p.1 ≠ k) : dictInsert l k v = l ++ [(k, v)] := by
  unfold dictInsert
  rw [if_neg]
  simp only [List.any_eq_true, not_exists, not_and]
  intro p hp
  simp [h p hp]

theorem dictGet_append_right {α : Type} (l : List (String × α)) (k : String) (v : α)
    (h : dictGet l k = none) : dictGet (l ++ [(k, v)]) k = some v := by
  induction l with
  | nil => simp [dictGet]
  | cons p rest ih =>
    simp only [dictGet] at h
    by_cases hp : p.1 = k
    · rw [if_pos hp] at h; cases h
    · rw [if_neg hp] at h
      cases p with
      | mk a b =>
        simp only [List.cons_append, dictGet]
        rw [if_neg hp]
        exact ih h

theorem dictGet_mapUpdate_ne {α : Type} (l : List (String × α)) (k2 key : String)
    (v : α) (hne : k2 ≠ key) :
    dictGet (l.map (fun p => if p.1 = k2 then (k2, v) else p)) key = dictGet l key := by
  induction l with
  | nil => rfl
  | cons p rest ih =>
    cases p with
    | mk a b =>
      by_cases hp : a = k2
      · have h1 : (if (a, b).1 = k2 then (k2, v) else (a, b)) = (k2, v) := by simp [hp]
        rw [List.map_cons, h1]
        simp only [dictGet]
        have hak : ¬(a = key) := fun h => hne (by rw [← hp]; exact h)
        rw [if_neg hne, if_neg hak]
        exact ih
      · have h1 : (if (a, b).1 = k2 then (k2, v) else (a, b)) = (a, b) := by simp [hp]
        rw [List.map_cons, h1]
        simp only [dictGet]
        by_cases hak : a = key
        · rw [if_pos hak, if_pos hak]
        · rw [if_neg hak, if_neg hak]
          exact ih

theorem dictGet_append_single_ne {α : Type} (l : List (String × α)) (k2 key : String)
    (v : α) (hne : k2 ≠ key) :
    dictGet (l ++ [(k2, v)]) key = dictGet l key := by
  induction l with
  | nil => simp [dictGet, hne]
  | cons p rest ih =>
    cases p with
    | mk a b =>
      simp only [List.cons_append, dictGet]
      by_cases hak : a = key
      · rw [if_pos hak, if_pos hak]
      · rw [if_neg hak, if_neg hak]
        exact ih

theorem dictGet_insert_ne {α : Type} (l : List (String × α)) (k2 key : String) (v : α)
    (hne : k2 ≠ key) : dictGet (dictInsert l k2 v) key = dictGet l key := by
  unfold dictInsert
  by_cases ha : l.any (fun p => p.1 = k2) = true
  · rw [if_pos ha]
    exact dictGet_mapUpdate_ne l k2 key v hne
  · rw [if_neg ha]
    exact dictGet_append_single_ne l k2 key v hne

theorem load_meta_aux (rows : List Row) :
    ∀ (acc : List (String × Metadata)),
      (rows.map (fun r => splitDotHead r.post_id)).Nodup →
      (∀ r ∈ rows, ∀ p ∈ acc, p.1 ≠ splitDotHead r.post_id) →
      (rows.foldl (fun m r => dictInsert m (splitDotHead r.post_id) (rowMeta r)) acc).length =
        acc.length + rows.length ∧
      ∀ r ∈ rows,
        dictGet (rows.foldl (fun m r => dictInsert m (splitDotHead r.post_id) (rowMeta r)) acc)
          (splitDotHead r.post_id) = some (rowMeta r) := by
  induction rows with
  | nil => intro acc _ _; simp
  | cons r rows ih =>
    intro acc hnd hdisj
    have hfresh : ∀ p ∈ acc, p.1 ≠ splitDotHead r.post_id :=
      hdisj r (by simp)
    have hins : dictInsert acc (splitDotHead r.post_id) (rowMeta r) =
        acc ++ [(splitDotHead r.post_id, rowMeta r)] :=
      dictInsert_fresh acc _ _ hfresh
    have hnd2 : (rows.map (fun r => splitDotHead r.post_id)).Nodup :=
      (List.nodup_cons.mp hnd).2
    have hhead : splitDotHead r.post_id ∉ rows.map (fun r => splitDotHead r.post_id) :=
      (List.nodup_cons.mp hnd).1
    have hdisj2 : ∀ r2 ∈ rows,
        ∀ p ∈ acc ++ [(splitDotHead r.post_id, rowMeta r)],
          p.1 ≠ splitDotHead r2.post_id := by
      intro r2 hr2 p hp
      rcases List.mem_append.mp hp with hpa | hpb
      · exact hdisj r2 (by simp [hr2]) p hpa
      · simp only [List.mem_singleton] at hpb
        subst hpb
        intro hkey
        have hkey2 : splitDotHead r.post_id = splitDotHead r2.post_id := hkey
        exact hhead (by
          rw [hkey2]
          exact List.mem_map.mpr ⟨r2, hr2, rfl⟩)
    have ihres := ih (acc ++ [(splitDotHead r.post_id, rowMeta r)]) hnd2 hdisj2
    constructor
    · simp only [List.foldl_cons, hins]
      rw [ihres.1]
      simp
      omega
    · intro r2 hr2
      rcases List.mem_cons.mp hr2 with heq | hmem
      · subst heq
        simp only [List.foldl_cons, hins]
        have hnotin : ∀ r3 ∈ rows, splitDotHead r3.post_id ≠ splitDotHead r2.post_id := by
          intro r3 hr3 hk
          exact hhead (by
            rw [← hk]
            exact List.mem_map.mpr ⟨r3, hr3, rfl⟩)
        have hpreserve : ∀ (rs : List Row) (m : List (String × Metadata)),
            (∀ r3 ∈ rs, splitDotHead r3.post_id ≠ splitDotHead r2.post_id) →
            dictGet (rs.foldl (fun m r => dictInsert m (splitDotHead r.post_id) (rowMeta r)) m)
              (splitDotHead r2.post_id) = dictGet m (splitDotHead r2.post_id) := by
          intro rs
          induction rs with
          | nil => intro m _; rfl
          | cons r4 rs4 ih4 =>
            intro m hno
            simp only [List.foldl_cons]
            rw [ih4 _ (fun r5 h5 => hno r5 (by simp [h5]))]
            exact dictGet_insert_ne m _ _ _ (hno r4 (by simp))
        rw [hpreserve rows _ hnotin]
        apply dictGet_append_right
        exact dictGet_none_of_disjoint acc _ hfresh
      · simp only [List.foldl_cons, hins]
        exact ihres.2 r2 hmem

/-! ## Claims -/

/-- Claim C1, counterexample: the file `12345.html` with no matching metadata
record is converted with frontmatter title `"Untitled"`, but it is written as
`12345_12345.md` — the sanitized title in the output filename is derived from
the file stem, not from the fallback title `"Untitled"` as the claim states
(which would give `12345_Untitled.md`). -/
theorem c1_filename_from_stem_counterexample :
    convert_file [] id ⟨"12345.html", some "hi"⟩ =
      Outcome.converted "12345_12345.md"
        "---\ntitle: \"Untitled\"\ndate: \ntype: post\npublished: false\nsubstack_id: 12345\n---\n\nhi" ∧
    "12345_12345.md" ≠ "12345_Untitled.md" :=
  ⟨by decide, by decide⟩

/-- Claim C1, amended: for every input HTML file whose post_id has no matching
metadata record, the converter still converts the file (missing metadata is
treated as published), emits a frontmatter block whose title line is
`title: "Untitled"`, and writes the output under the name
`<post_id>_<sanitized-title>.md` where the sanitized title is derived from the
file's stem (the filename without its final extension), not from the fallback
title `"Untitled"`. -/
theorem c1_missing_metadata_converted (meta : List (String × Metadata))
    (h2t : String → String) (f : SFile) (html : String)
    (hc : f.content = some html)
    (hm : dictGet meta (splitDotHead f.name) = none) :
    ∃ body, convert_file meta h2t f =
      Outcome.converted
        (splitDotHead f.name ++ "_" ++ safe_title (pathStem f.name) ++ ".md")
        ("---\ntitle: \"Untitled\"\n" ++ body) := by
  refine ⟨"date: \ntype: post\npublished: false\nsubstack_id: " ++
    (splitDotHead f.name ++ "\n---\n\n") ++
    mdPostprocess (h2t (_clean_html_content html)), ?_⟩
  simp only [convert_file, hc, hm, mget]
  rw [if_neg (by decide)]
  rw [create_frontmatter_none]
  simp only [String.append_assoc]

/-- Witness for C1 at the concrete file `9.html` with empty metadata. -/
theorem c1_missing_metadata_converted_witness :
    ∃ body, convert_file [] id ⟨"9.html", some "x"⟩ =
      Outcome.converted "9_9.md" ("---\ntitle: \"Untitled\"\n" ++ body) := by
  have h := c1_missing_metadata_converted [] id ⟨"9.html", some "x"⟩ "x" rfl rfl
  have e : splitDotHead (SFile.mk "9.html" (some "x")).name ++ "_" ++
      safe_title (pathStem (SFile.mk "9.html" (some "x")).name) ++ ".md" = "9_9.md" := by
    decide
  rw [e] at h
  exact h

/-- Claim C2, counterexample: the sanitizer is not idempotent as a string
transformation; on the input `<br><br>` the first pass emits the paragraph
marker `\n\n`, which the second pass's whitespace collapse reduces to a
single space. -/
theorem c2_sanitizer_not_idempotent_counterexample :
    _clean_html_content (_clean_html_content "<br><br>") ≠
      _clean_html_content "<br><br>" := by
  decide

/-- Claim C2, amended: one sanitizer pass removes all noise-marker elements
(no residual noise `div` survives the removal sweep, at any depth), but the
sanitizer is not idempotent on its own output: the two-newline paragraph
markers produced from `<br><br>` pairs are collapsed to a single space by a
second pass. -/
theorem c2_noise_removal_exhaustive :
    (∀ ns : List Node, noiseFreeForest (removeNoiseForest ns) = true) ∧
    _clean_html_content "<br><br>" = "\n\n" ∧
    _clean_html_content "\n\n" = " " :=
  ⟨removeNoiseForest_free, by decide, by decide⟩

/-- Claim C3, counterexample: a `captioned-image-container` wrapper with no
descendant image is not replaced by an empty fragment; the sanitizer leaves
the whole wrapper in the output (here the output equals the input, which is
not the empty document the claim demands). -/
theorem c3_wrapper_kept_counterexample :
    _clean_html_content "<div class=\"captioned-image-container\"><p>hi</p></div>" =
      "<div class=\"captioned-image-container\"><p>hi</p></div>" ∧
    ("<div class=\"captioned-image-container\"><p>hi</p></div>" : String) ≠ "" :=
  ⟨by decide, by decide⟩

/-- Claim C3, amended: an "image with caption" wrapper (class
`captioned-image-container`) that contains no descendant image element is
left in place unchanged by the sanitizer's image-simplification step (the
`if img:` guard skips it), so the wrapper still appears in the sanitized
document. -/
theorem c3_no_image_wrapper_unchanged (attrs : List (String × String))
    (c : List Node) (hcl : isCaptionDiv "div" attrs = true)
    (himg : findTagForest "img" c = none) :
    transformForest [Node.elem "div" attrs c] = [Node.elem "div" attrs c] := by
  simp [transformForest, transformNode, hcl, himg, transformForest_noImg c himg]

/-- Witness for C3 at a concrete imageless wrapper. -/
theorem c3_no_image_wrapper_unchanged_witness :
    transformForest [Node.elem "div" [("class", "captioned-image-container")]
        [Node.elem "p" [] [Node.text "hi"]]] =
      [Node.elem "div" [("class", "captioned-image-container")]
        [Node.elem "p" [] [Node.text "hi"]]] :=
  c3_no_image_wrapper_unchanged _ _ (by decide) rfl

/-- Claim C4, counterexample: the sanitization keeps underscores (the `\w`
class of the source regex includes `_`), while the claim's rule — strip every
character that is not alphanumeric, whitespace, or hyphen — would delete
them: on the title `a_b` the claim's rule yields `ab` but the code yields
`a_b`. -/
theorem c4_underscore_kept_counterexample :
    claimSanitize "a_b" = "ab" ∧ safe_title "a_b" = "a_b" ∧ ("a_b" : String) ≠ "ab" :=
  ⟨by decide, by decide, by decide⟩

/-- Claim C4, amended: for every title string, the filename sanitization
strips every character that is not a word character (alphanumeric or
underscore), whitespace, or hyphen, trims surrounding whitespace, then
collapses every run of whitespace-or-hyphen characters into a single hyphen;
in particular `"Hello, World! — Part 2"` sanitizes to `Hello-World-Part-2`. -/
theorem c4_filename_sanitization :
    (∀ t : String, safe_title t = specSanitizeWord t) ∧
    safe_title "Hello, World! — Part 2" = "Hello-World-Part-2" :=
  ⟨safe_title_eq_spec, by decide⟩

/-- Claim C5: the frontmatter builder emits the keys in the fixed order
`title, subtitle, date, type, published, substack_id` between `---`
delimiters, omitting the subtitle line exactly when the subtitle trims to
empty; on the record
`{title:"Hello World", subtitle:"", date:"2024-03-01T12:00:00Z",
type:"newsletter", published:true}` it emits exactly the claimed block. -/
theorem c5_frontmatter_fixed_order :
    (∀ (pid : String) (md : Option Metadata),
      _create_frontmatter pid md = strConcat (fmPieces pid md)) ∧
    _create_frontmatter "p1"
        (some ⟨"Hello World", "", "2024-03-01T12:00:00Z", "newsletter", true⟩) =
      "---\ntitle: \"Hello World\"\ndate: 2024-03-01\ntype: newsletter\npublished: true\nsubstack_id: p1\n---\n\n" := by
  constructor
  · intro pid md
    by_cases h : pyStrip (mget md (fun m => m.subtitle) "") ≠ ""
    · apply String.ext
      simp [_create_frontmatter, fmPieces, strConcat, h, String.data_append,
        List.append_assoc]
    · apply String.ext
      simp [_create_frontmatter, fmPieces, strConcat, h, String.data_append,
        List.append_assoc]
  · decide

/-- Claim C6: a file whose metadata record has `published = false` is
skipped: the converter returns the skipped outcome, writes nothing to the
output directory, and the batch tally (count and directory) is the same as if
the file were absent from the batch. -/
theorem c6_unpublished_no_output (meta : List (String × Metadata))
    (h2t : String → String) (f : SFile) (m : Metadata) (html : String)
    (hc : f.content = some html)
    (hm : dictGet meta (splitDotHead f.name) = some m)
    (hp : m.published = false) :
    convert_file meta h2t f = Outcome.skipped ∧
    (∀ outDir, writeOut outDir (convert_file meta h2t f) = outDir) ∧
    (∀ fs1 fs2 outDir,
      convert_all meta h2t (fs1 ++ f :: fs2) outDir =
        convert_all meta h2t (fs1 ++ fs2) outDir) := by
  have hskip : convert_file meta h2t f = Outcome.skipped := by
    simp [convert_file, hc, hm, mget, hp]
  refine ⟨hskip, fun outDir => by rw [hskip]; rfl, fun fs1 fs2 outDir => ?_⟩
  unfold convert_all
  apply foldl_skip_middle
  intro acc
  simp only [hskip]
  rfl

/-- Witness for C6 at a concrete unpublished post. -/
theorem c6_unpublished_no_output_witness :
    convert_file [("1", ⟨"T", "", "", "post", false⟩)] id ⟨"1.html", some "x"⟩ =
      Outcome.skipped ∧
    writeOut []
        (convert_file [("1", ⟨"T", "", "", "post", false⟩)] id ⟨"1.html", some "x"⟩) =
      [] ∧
    convert_all [("1", ⟨"T", "", "", "post", false⟩)] id [⟨"1.html", some "x"⟩] [] =
      convert_all [("1", ⟨"T", "", "", "post", false⟩)] id [] [] := by
  have h := c6_unpublished_no_output [("1", ⟨"T", "", "", "post", false⟩)] id
    ⟨"1.html", some "x"⟩ ⟨"T", "", "", "post", false⟩ "x" rfl rfl rfl
  exact ⟨h.1, h.2.1 [], h.2.2 [] [] []⟩

/-- Claim C7: the date formatter applies the `Z → +00:00` rewrite, parses the
result with the ISO-8601 (`fromisoformat`) grammar, formats a successful
parse as `YYYY-MM-DD`, and returns the input unchanged on any parse failure
(it never raises; the embedding is a total function). -/
theorem c7_date_format_fallback :
    (∀ s : String, fromisoformat (zReplace s.data) = none → _format_date s = s) ∧
    (∀ (s : String) (y m d : Nat),
      fromisoformat (zReplace s.data) = some (y, m, d) →
        _format_date s = fmtYMD y m d) ∧
    _format_date "2024-03-01T12:00:00Z" = "2024-03-01" ∧
    _format_date "not-a-date" = "not-a-date" := by
  refine ⟨?_, ?_, by decide, by decide⟩
  · intro s h
    simp [_format_date, h]
  · intro s y m d h
    simp [_format_date, h]

/-- Witness for C7: a failing parse passes the raw string through and a
leap-day timestamp with a trailing `Z` formats to its date. -/
theorem c7_date_format_fallback_witness :
    _format_date "02/03/2024" = "02/03/2024" ∧
    _format_date "2020-02-29T00:00:00Z" = "2020-02-29" := by
  constructor
  · exact c7_date_format_fallback.1 "02/03/2024" (by decide)
  · have h := c7_date_format_fallback.2.1 "2020-02-29T00:00:00Z" 2020 2 29 (by decide)
    rw [h]
    decide

/-- Claim C8, counterexample: two valid rows whose post_ids share the prefix
before the first dot (`7.a` and `7.b`) produce a single mapping entry, not
one entry per row as the claim states. -/
theorem c8_duplicate_key_counterexample :
    (_load_posts_metadata
        [⟨"7.a", "t1", "s1", "d1", "post", "true"⟩,
         ⟨"7.b", "t2", "s2", "d2", "post", "false"⟩]).length = 1 ∧
    (1 : Nat) ≠ 2 :=
  ⟨by decide, by decide⟩

/-- Claim C8, amended: for every list of valid metadata rows whose post_id
prefixes (the substring before the first `.`) are pairwise distinct, the
loader produces exactly one mapping entry per row, keyed by that prefix, with
the entry's published flag true exactly when the row's `is_published` field
equals the literal string `"true"`; rows sharing a prefix collapse into a
single entry (the last row wins). -/
theorem c8_loader_one_entry_per_row (rows : List Row)
    (hnd : (rows.map (fun r => splitDotHead r.post_id)).Nodup) :
    (_load_posts_metadata rows).length = rows.length ∧
    (∀ r ∈ rows,
      dictGet (_load_posts_metadata rows) (splitDotHead r.post_id) =
        some (rowMeta r)) ∧
    (∀ r : Row, ((rowMeta r).published = true) ↔ r.is_published = "true") := by
  have h := load_meta_aux rows [] hnd (by intro r _ p hp; cases hp)
  refine ⟨by simpa using h.1, h.2, ?_⟩
  intro r
  simp [rowMeta]

/-- Witness for C8 at two rows with distinct prefixes. -/
theorem c8_loader_one_entry_per_row_witness :
    (_load_posts_metadata
        [⟨"1.a", "t1", "s1", "d1", "post", "true"⟩,
         ⟨"2.b", "t2", "s2", "d2", "post", "false"⟩]).length = 2 := by
  have h := c8_loader_one_entry_per_row
    [⟨"1.a", "t1", "s1", "d1", "post", "true"⟩,
     ⟨"2.b", "t2", "s2", "d2", "post", "false"⟩] (by decide)
  simpa using h.1

/-- Claim C9: in a batch where one file raises during conversion (its read
fails) and every other file converts, the driver records the bad file as
failed, continues, and the reported success count is exactly the number of
good files. -/
theorem c9_batch_resilience (meta : List (String × Metadata))
    (h2t : String → String) (fs1 fs2 : List SFile) (bad : SFile)
    (outDir : List (String × String))
    (hbad : bad.content = none)
    (h1 : ∀ f ∈ fs1, isConverted (convert_file meta h2t f) = true)
    (h2 : ∀ f ∈ fs2, isConverted (convert_file meta h2t f) = true) :
    convert_file meta h2t bad = Outcome.failed ∧
    (convert_all meta h2t (fs1 ++ bad :: fs2) outDir).1 =
      fs1.length + fs2.length := by
  have hf : convert_file meta h2t bad = Outcome.failed := by
    simp [convert_file, hbad]
  refine ⟨hf, ?_⟩
  unfold convert_all
  rw [convert_all_count]
  rw [List.countP_append, List.countP_cons]
  have hb : isConverted (convert_file meta h2t bad) = false := by
    rw [hf]
    rfl
  rw [List.countP_eq_length.mpr h1, List.countP_eq_length.mpr h2]
  simp [hb]

/-- Witness for C9: two good files and one unreadable file yield two
successes. -/
theorem c9_batch_resilience_witness :
    convert_file [] id ⟨"3.html", none⟩ = Outcome.failed ∧
    (convert_all [] id
        [⟨"1.html", some "a"⟩, ⟨"3.html", none⟩, ⟨"2.html", some "b"⟩] []).1 = 2 := by
  have h := c9_batch_resilience [] id [⟨"1.html", some "a"⟩] [⟨"2.html", some "b"⟩]
    ⟨"3.html", none⟩ [] rfl (by decide) (by decide)
  exact ⟨h.1, h.2⟩

/-- Claim C10: the frontmatter builder inserts the title verbatim between
double quotes with no escaping, so a title containing a double quote yields a
title line with four double-quote characters — more than the two of a
well-formed quoted value. -/
theorem c10_unescaped_quotes :
    _create_frontmatter "1" (some ⟨"He said \"hi\"", "", "x", "post", true⟩) =
      "---\ntitle: \"He said \"hi\"\"\ndate: x\ntype: post\npublished: true\nsubstack_id: 1\n---\n\n" ∧
    ("title: \"He said \"hi\"\"".data.count '"') > 2 :=
  ⟨by decide, by decide⟩
